import Mathlib

/-!
Shallow embedding of `tree-rs` (src/main.rs), a `tree`-like directory lister.
Pure fragments of the program (the prefix renderer, the level-stack update,
the colour selection, the summary counters, the configuration builder) are
translated into Lean functions; the terminal is modelled as a list of output
events, and the entry stream produced by the (out-of-tree) path iterator is
modelled as an explicit list of items.
-/

namespace TreeRs

/-- The glyph constants of `mod dirsign` in src/main.rs. -/
def dirsign.HORZ : Char := '─'

/-- Branch glyph `├`. -/
def dirsign.CROSS : Char := '├'

/-- Vertical continuation glyph `│`. -/
def dirsign.VERT : Char := '│'

/-- Terminal branch glyph `└`. -/
def dirsign.LAST_FILE : Char := '└'

/-- Non-breaking space used as blank continuation padding. -/
def dirsign.BLANK : Char := ' '

/-- Embeds `set_line_prefix` (src/main.rs lines 26-57).  The Rust function
clears the `String` buffer first, so the result depends only on `levels`;
we return the string it leaves in the buffer.  `len.saturating_sub(1)` is
Nat subtraction; the `for_each` over `levels.iter().take(index)` becomes a
map over `levels.take index`; `levels.last()` becomes `getLast?`. -/
def set_line_pfx (levels : List Bool) : String :=
  let index := levels.length - 1
  let body := String.join ((levels.take index).map (fun level =>
    if level then
      String.mk [dirsign.VERT, dirsign.BLANK, dirsign.BLANK, ' ']
    else
      String.mk [' ', ' ', ' ', ' ']))
  match levels.getLast? with
  | some last =>
      body ++ String.mk
        [if last then dirsign.CROSS else dirsign.LAST_FILE,
         dirsign.HORZ, dirsign.HORZ, ' ']
  | none => body

/-- Embeds `TreePrinter::update_levels` (src/main.rs lines 163-176).
The `while levels.len() > level { levels.pop() }` loop is `List.take level`;
the conditional push appends one element; the final write
`levels[levels_len.saturating_sub(1)] = !is_last` (guarded by
`levels_len > 0`) is `List.set (length - 1)`. -/
def update_levels (levels : List Bool) (level : Nat) (is_last : Bool) : List Bool :=
  let t := levels.take level
  let t := if level > t.length then t ++ [!is_last] else t
  if t.length > 0 then t.set (t.length - 1) (!is_last) else t

/-- The spec's update rule for the level stack, stated from its words:
"truncate the stack to length `depth`; if the stack is shorter than `depth`,
push `!is_last_sibling`; always set the last element of the stack to
`!is_last_sibling` for the current entry."  Used only to compare with
`update_levels`. -/
def spec_update_rule (levels : List Bool) (depth : Nat) (is_last : Bool) : List Bool :=
  let t := levels.take depth
  let t := if t.length < depth then t ++ [!is_last] else t
  if t.isEmpty then t else t.dropLast ++ [!is_last]

/-- Folding `update_levels` over a list of `(level, is_last)` calls,
starting from the empty stack, as `iterate_folders` does. -/
def run_updates (calls : List (Nat × Bool)) : List Bool :=
  calls.foldl (fun levels c => update_levels levels c.1 c.2) []

/-- Continuation segment emitted for one level-stack element except the last:
`│` plus two non-breaking spaces plus a space when `true`, four spaces
when `false`. -/
def contSeg (b : Bool) : String :=
  if b then
    String.mk [dirsign.VERT, dirsign.BLANK, dirsign.BLANK, ' ']
  else
    String.mk [' ', ' ', ' ', ' ']

/-- Connector emitted for the current entry: `├── ` when the last stack
element is `true`, `└── ` when it is `false`. -/
def connector (b : Bool) : String :=
  String.mk
    [if b then dirsign.CROSS else dirsign.LAST_FILE,
     dirsign.HORZ, dirsign.HORZ, ' ']

/-- `std::fs::Metadata` as consumed by this program: the directory flag, the
symlink flag, and the Unix permission bits that `is_executable` reads.  The
code itself only ever queries `is_dir()` and `permissions().mode()`. -/
structure Metadata where
  is_dir : Bool
  is_symlink : Bool
  mode : Nat
deriving DecidableEq

/-- Embeds the Linux variant of `is_executable` (src/main.rs lines 112-117):
`(mode & 0o100) != 0`. -/
def is_executable (metadata : Metadata) : Bool :=
  metadata.mode &&& 0o100 != 0

/-- One command sent to the terminal: a foreground-colour change (`t.fg`),
a style reset (`t.reset`), or literal text. -/
inductive TermEvent where
  | fg (c : Nat) : TermEvent
  | reset : TermEvent
  | text (s : String) : TermEvent
deriving DecidableEq

/-- `term::color::BRIGHT_BLUE`. -/
def color.BRIGHT_BLUE : Nat := 12

/-- `term::color::BRIGHT_GREEN`. -/
def color.BRIGHT_GREEN : Nat := 10

/-- The printable text carried by a list of terminal events: colour and
reset commands contribute nothing. -/
def textOf : List TermEvent → String
  | [] => ""
  | TermEvent.fg _ :: es => textOf es
  | TermEvent.reset :: es => textOf es
  | TermEvent.text s :: es => s ++ textOf es

/-- A compiled glob pattern (`globset::Glob`), abstract: the program never
inspects it other than by compiling it into a matcher. -/
structure Glob where
  pat : String
deriving DecidableEq

/-- `globset::GlobMatcher`, the compiled matcher. -/
structure GlobMatcher where
  glob : Glob
deriving DecidableEq

/-- `Glob::compile_matcher`. -/
def Glob.compile_matcher (g : Glob) : GlobMatcher := ⟨g⟩

/-- The parsed command line (struct `Args`, src/main.rs lines 232-252). -/
structure Args where
  show_all : Bool
  color_on : Bool
  color_off : Bool
  dir : String
  include_pattern : Option String
  max_level : Nat

/-- Run configuration (struct `Config`, src/main.rs lines 119-124). -/
structure Config where
  use_color : Bool
  show_hidden : Bool
  max_level : Nat
  include_glob : Option GlobMatcher

/-- Embeds `Config::try_from` (src/main.rs lines 126-145), parametrised by
the external `Glob::new` parser `glob_new` (crate `globset`).  The Rust
`map / transpose / map_err(..)? / map(compile_matcher)` chain over the
optional pattern becomes the match below; the error string mirrors the
`format!` call. -/
def Config.try_from (glob_new : String → Except String Glob) (value : Args) :
    Except String Config :=
  match (value.include_pattern.map glob_new) with
  | some (Except.error e) =>
      Except.error ("`include_pattern` is not valid: " ++ e)
  | some (Except.ok g) =>
      Except.ok
        { use_color := value.color_on || !value.color_off
          show_hidden := value.show_all
          max_level := value.max_level
          include_glob := some g.compile_matcher }
  | none =>
      Except.ok
        { use_color := value.color_on || !value.color_off
          show_hidden := value.show_all
          max_level := value.max_level
          include_glob := none }

/-- Embeds `write_color` (src/main.rs lines 59-76) as the list of terminal
events it emits: `fg` first when colour is on, then the text, then `reset`
when colour is on. -/
def write_color (config : Config) (c : Nat) (s : String) : List TermEvent :=
  (if config.use_color then [TermEvent.fg c] else []) ++
    [TermEvent.text s] ++
      (if config.use_color then [TermEvent.reset] else [])

/-- Embeds `print_path` (src/main.rs lines 78-91): directories in
`BRIGHT_BLUE`, executable files in `BRIGHT_GREEN`, everything else as
plain text. -/
def print_path (file_name : String) (metadata : Metadata) (config : Config) :
    List TermEvent :=
  if metadata.is_dir then
    write_color config color.BRIGHT_BLUE file_name
  else if is_executable metadata then
    write_color config color.BRIGHT_GREEN file_name
  else
    [TermEvent.text file_name]

/-- Modelled from the spec: `pathiterator::IteratorItem` — module
`pathiterator` is not under src/.  Per the spec's Entry record, an item
carries a display name, its depth, the last-sibling flag, the result of the
metadata lookup (`io::Result<Metadata>`, errors as strings), and the
directory flag queried by `is_dir()`. -/
structure IteratorItem where
  file_name : String
  level : Nat
  is_last : Bool
  metadata : Except String Metadata
  is_dir : Bool

/-- Embeds `TreePrinter::print_line` (src/main.rs lines 218-229) as the
triple (standard-output events, standard-error text, returned result):
the prefix is printed first, then either the styled name (metadata `Ok`)
on stdout or `"<name> [Error]"` on stderr, then a newline; the function
always returns `Ok(())`. -/
def print_line (entry : IteratorItem) (pfx : String) (config : Config) :
    List TermEvent × String × Except String Unit :=
  match entry.metadata with
  | Except.ok metadata =>
      (TermEvent.text pfx :: print_path entry.file_name metadata config ++
          [TermEvent.text "\n"],
        "", Except.ok ())
  | Except.error _ =>
      ([TermEvent.text pfx, TermEvent.text "\n"],
        entry.file_name ++ " [Error]", Except.ok ())

/-- `DirEntrySummary` (src/main.rs lines 93-105). -/
structure DirEntrySummary where
  num_folders : Nat
  num_files : Nat
deriving DecidableEq

/-- The per-entry counting step of `iterate_folders` (src/main.rs lines
203-207): a directory entry increments `num_folders`, every other entry
increments `num_files`. -/
def count_entry (s : DirEntrySummary) (e : IteratorItem) : DirEntrySummary :=
  if e.is_dir then
    { s with num_folders := s.num_folders + 1 }
  else
    { s with num_files := s.num_files + 1 }

/-- The summary computed by `iterate_folders` (src/main.rs lines 194-216)
over the stream of yielded entries: count every entry, then
`num_folders.saturating_sub(1)` (Nat subtraction) to exclude the root. -/
def iterate_folders_summary (entries : List IteratorItem) : DirEntrySummary :=
  let s := entries.foldl count_entry ⟨0, 0⟩
  { s with num_folders := s.num_folders - 1 }

/-- Embeds the driving sequence of `main` (src/main.rs lines 254-265) that
matters for configuration errors: build the `Config` from the parsed
arguments and only on success run the traversal (abstracted as
`traverse`). -/
def main_model (glob_new : String → Except String Glob) (args : Args)
    (traverse : Config → Except String DirEntrySummary) :
    Except String DirEntrySummary :=
  match Config.try_from glob_new args with
  | Except.error e => Except.error e
  | Except.ok config => traverse config

/-- Holds of a terminal event that is not a foreground-colour command for
any colour other than the two accents `print_path` can emit
(`BRIGHT_BLUE` for directories, `BRIGHT_GREEN` for executables). -/
def noThirdAccent : TermEvent → Bool
  | TermEvent.fg c => c == color.BRIGHT_BLUE || c == color.BRIGHT_GREEN
  | TermEvent.reset => true
  | TermEvent.text _ => true

end TreeRs

namespace TreeRs

lemma set_concat (l : List Bool) (a b : Bool) :
    (l ++ [a]).set l.length b = l ++ [b] := by
  induction l with
  | nil => rfl
  | cons x xs ih => simp [List.set, ih]

lemma set_last_concat (l : List Bool) (a b : Bool) :
    (l ++ [a]).set ((l ++ [a]).length - 1) b = l ++ [b] := by
  simp [set_concat l a b]

/-- C1: For every non-empty level stack, the prefix produced by the code's
`set_line_prefix` is, for each stack element except the last, a vertical-bar
continuation `│` plus 3 spacing characters (non-breaking-space padding) when
the element is `true` and 4 blank characters when it is `false`, followed by
the connector for the current entry: `├── ` when the last stack element is
`true` (more siblings follow) and `└── ` when it is `false` (last sibling). -/
theorem set_line_pfx_shape (levels : List Bool) (h : levels ≠ []) :
    set_line_pfx levels =
      String.join (levels.dropLast.map contSeg) ++ connector (levels.getLast h) := by
  induction levels using List.reverseRecOn with
  | nil => exact absurd rfl h
  | append_singleton l a _ =>
      simp [set_line_pfx, contSeg, connector, List.getLast?_concat,
        List.getLast_concat, List.take_left']
      rfl

/-- Witness for C1 at the concrete stack `[true, false]`. -/
theorem set_line_pfx_shape_witness :
    ([true, false] ≠ ([] : List Bool)) ∧
      set_line_pfx [true, false] =
        String.join (([true, false] : List Bool).dropLast.map contSeg) ++
          connector (([true, false] : List Bool).getLast (by decide)) :=
  ⟨by decide, set_line_pfx_shape [true, false] (by decide)⟩

/-- C2: a single call to the code's `update_levels` computes exactly the
spec's update rule for the level stack: truncate to length at most `level`,
push one element `!is_last` when still shorter than `level`, and set the
last element (when the stack is non-empty) to `!is_last`. -/
theorem update_levels_eq_spec_rule (levels : List Bool) (level : Nat) (is_last : Bool) :
    update_levels levels level is_last = spec_update_rule levels level is_last := by
  unfold update_levels spec_update_rule
  generalize levels.take level = t
  by_cases hp : t.length < level
  · simp only [gt_iff_lt, if_pos hp]
    have h1 : 0 < (t ++ [!is_last]).length := by simp
    have h2 : (t ++ [!is_last]).isEmpty = false := by simp
    simp only [if_pos h1, h2, Bool.false_eq_true, if_false]
    rw [set_last_concat]
    simp
  · simp only [gt_iff_lt, if_neg hp]
    rcases List.eq_nil_or_concat t with rfl | ⟨l, a, rfl⟩
    · simp
    · have h1 : 0 < (l.concat a).length := by simp
      have h2 : (l.concat a).isEmpty = false := by simp
      simp only [if_pos h1, h2, Bool.false_eq_true, if_false]
      simp only [List.concat_eq_append]
      rw [set_last_concat]
      simp

lemma length_set_last_getLast (l : List Bool) (b : Bool) (h : l ≠ []) :
    (l.set (l.length - 1) b).length = l.length ∧
      (l.set (l.length - 1) b).getLast? = some b := by
  rcases List.eq_nil_or_concat l with rfl | ⟨m, a, rfl⟩
  · exact absurd rfl h
  · simp only [List.concat_eq_append]
    rw [set_last_concat]
    simp [List.getLast?_concat]

/-- One `update_levels` call starting from a stack of length at least
`level - 1` leaves a stack of length exactly `level`, whose last element
(when `level > 0`) is `!is_last`. -/
lemma update_levels_step (levels : List Bool) (level : Nat) (is_last : Bool)
    (h : level ≤ levels.length + 1) :
    (update_levels levels level is_last).length = level ∧
      (0 < level → (update_levels levels level is_last).getLast? = some (!is_last)) := by
  simp only [update_levels]
  rcases Nat.lt_or_ge levels.length level with hgt | hle
  · have ht : levels.take level = levels := List.take_of_length_le (by omega)
    rw [ht, if_pos hgt]
    have hpos : 0 < (levels ++ [!is_last]).length := by simp
    rw [if_pos hpos]
    have hs := length_set_last_getLast (levels ++ [!is_last]) (!is_last) (by simp)
    refine ⟨?_, fun _ => hs.2⟩
    rw [hs.1]
    simp
    omega
  · have htl : (levels.take level).length = level := by
      rw [List.length_take]
      omega
    have hnp : ¬ level > (levels.take level).length := by rw [htl]; omega
    rw [if_neg hnp]
    rcases Nat.eq_zero_or_pos level with h0 | hpos
    · subst h0
      rw [if_neg (by rw [htl]; omega)]
      exact ⟨htl, by omega⟩
    · rw [if_pos (by rw [htl]; omega)]
      have hne : levels.take level ≠ [] := by
        intro hnil
        rw [hnil] at htl
        simp at htl
        omega
      have hs := length_set_last_getLast (levels.take level) (!is_last) hne
      exact ⟨by rw [hs.1, htl], fun _ => hs.2⟩

lemma run_updates_aux (pre : List (Nat × Bool)) :
    ∀ (c : Nat × Bool) (rest : List (Nat × Bool)) (levels : List Bool),
      (∀ q, (pre ++ c :: rest).head? = some q → q.1 ≤ levels.length + 1) →
      List.Chain' (fun a b : Nat × Bool => b.1 ≤ a.1 + 1) (pre ++ c :: rest) →
      ((pre ++ [c]).foldl (fun ls q => update_levels ls q.1 q.2) levels).length = c.1 ∧
        (0 < c.1 →
          ((pre ++ [c]).foldl (fun ls q => update_levels ls q.1 q.2) levels).getLast? =
            some (!c.2)) := by
  induction pre with
  | nil =>
      intro c rest levels hh _
      have hb : c.1 ≤ levels.length + 1 := hh c (by simp)
      simpa using update_levels_step levels c.1 c.2 hb
  | cons p pre ih =>
      intro c rest levels hh hch
      have hb : p.1 ≤ levels.length + 1 := hh p (by simp)
      rw [List.cons_append, List.foldl_cons]
      rw [List.cons_append] at hch
      have hrel := (List.chain'_cons'.mp hch).1
      have hch' := (List.chain'_cons'.mp hch).2
      have hstep := update_levels_step levels p.1 p.2 hb
      refine ih c rest (update_levels levels p.1 p.2) ?_ hch'
      intro q hq
      have : q.1 ≤ p.1 + 1 := hrel q (by rw [Option.mem_def, hq])
      rw [hstep.1]
      omega

/-- C3: for every sequence of `update_levels` calls whose first call passes
level `0` and where each later call's level exceeds the previous one's by at
most `1`, after every call the stack's length equals that call's level, and
when the level is positive the last element equals `!is_last` — the stack is
never left stale. -/
theorem update_levels_trace_inv (calls : List (Nat × Bool))
    (h_first : ∀ q, calls.head? = some q → q.1 = 0)
    (h_chain : List.Chain' (fun a b : Nat × Bool => b.1 ≤ a.1 + 1) calls) :
    ∀ pre c rest, calls = pre ++ c :: rest →
      (run_updates (pre ++ [c])).length = c.1 ∧
        (0 < c.1 → (run_updates (pre ++ [c])).getLast? = some (!c.2)) := by
  intro pre c rest hsplit
  subst hsplit
  simp only [run_updates]
  exact run_updates_aux pre c rest []
    (fun q hq => by rw [h_first q hq]; omega) h_chain

/-- Witness for C3 on the concrete call trace
`[(0, false), (1, true), (2, false), (1, false)]`. -/
theorem update_levels_trace_inv_witness :
    (run_updates [(0, false), (1, true), (2, false), (1, false)]).length = 1 ∧
      (0 < 1 →
        (run_updates [(0, false), (1, true), (2, false), (1, false)]).getLast? =
          some true) :=
  update_levels_trace_inv [(0, false), (1, true), (2, false), (1, false)]
    (by intro q hq; simp at hq; subst hq; rfl)
    (by simp [List.chain'_cons, List.chain'_singleton])
    [(0, false), (1, true), (2, false)] (1, false) [] rfl

lemma foldl_count_entry (entries : List IteratorItem) (a b : Nat) :
    entries.foldl count_entry ⟨a, b⟩ =
      ⟨a + entries.countP (fun e => e.is_dir),
        b + entries.countP (fun e => !e.is_dir)⟩ := by
  induction entries generalizing a b with
  | nil => simp
  | cons e es ih =>
      rcases he : e.is_dir with _ | _ <;>
        simp [count_entry, he, ih, List.countP_cons] <;>
          omega

lemma countP_not_add (entries : List IteratorItem) :
    entries.countP (fun e => e.is_dir) + entries.countP (fun e => !e.is_dir) =
      entries.length := by
  induction entries with
  | nil => simp
  | cons e es ih =>
      rcases he : e.is_dir with _ | _ <;> simp [List.countP_cons, he] <;> omega

/-- C4 counterexample: on a run whose only yielded entry is a plain-file
root, `iterate_folders` counts the root in `num_files`, so
`num_folders + num_files = 1` while the number of emitted lines with the
root excluded is `0` — the claimed equality fails and the root does
contribute to a counter. -/
theorem iterate_folders_root_file_counterexample :
    (iterate_folders_summary
          [⟨"plain.txt", 0, true, Except.ok ⟨false, false, 0o644⟩, false⟩]).num_folders +
        (iterate_folders_summary
          [⟨"plain.txt", 0, true, Except.ok ⟨false, false, 0o644⟩, false⟩]).num_files =
      1 ∧
      ([⟨"plain.txt", 0, true, Except.ok ⟨false, false, 0o644⟩, false⟩] :
          List IteratorItem).length - 1 = 0 :=
  ⟨rfl, rfl⟩

/-- C4 amended: over any entry stream whose first element is the root and
is a directory, the summary of `iterate_folders` counts every non-root
directory entry in `num_folders`, every non-root non-directory entry in
`num_files`, and their sum is the number of emitted entry lines minus the
root line — the root contributes to neither count.  (On a run whose root
is not a directory the root is counted in `num_files` instead, as the
counterexample shows.) -/
theorem iterate_folders_summary_counts (root : IteratorItem)
    (rest : List IteratorItem) (hroot : root.is_dir = true) :
    (iterate_folders_summary (root :: rest)).num_folders =
        rest.countP (fun e => e.is_dir) ∧
      (iterate_folders_summary (root :: rest)).num_files =
        rest.countP (fun e => !e.is_dir) ∧
      (iterate_folders_summary (root :: rest)).num_folders +
          (iterate_folders_summary (root :: rest)).num_files =
        (root :: rest).length - 1 := by
  simp only [iterate_folders_summary, List.foldl_cons, count_entry, hroot, if_pos]
  rw [foldl_count_entry]
  refine ⟨by simp, by simp, ?_⟩
  simp only [List.length_cons]
  rw [Nat.add_sub_cancel]
  simpa using countP_not_add rest

/-- Witness for C4 on a concrete stream: a directory root followed by one
subdirectory and one file. -/
theorem iterate_folders_summary_counts_witness :
    (iterate_folders_summary
          [⟨"root", 0, false, Except.ok ⟨true, false, 0o755⟩, true⟩,
            ⟨"sub", 1, false, Except.ok ⟨true, false, 0o755⟩, true⟩,
            ⟨"a.txt", 1, true, Except.ok ⟨false, false, 0o644⟩, false⟩]).num_folders =
        List.countP (fun e => e.is_dir)
          [(⟨"sub", 1, false, Except.ok ⟨true, false, 0o755⟩, true⟩ : IteratorItem),
            ⟨"a.txt", 1, true, Except.ok ⟨false, false, 0o644⟩, false⟩] ∧
      (iterate_folders_summary
          [⟨"root", 0, false, Except.ok ⟨true, false, 0o755⟩, true⟩,
            ⟨"sub", 1, false, Except.ok ⟨true, false, 0o755⟩, true⟩,
            ⟨"a.txt", 1, true, Except.ok ⟨false, false, 0o644⟩, false⟩]).num_files =
        List.countP (fun e => !e.is_dir)
          [(⟨"sub", 1, false, Except.ok ⟨true, false, 0o755⟩, true⟩ : IteratorItem),
            ⟨"a.txt", 1, true, Except.ok ⟨false, false, 0o644⟩, false⟩] ∧
      (iterate_folders_summary
            [⟨"root", 0, false, Except.ok ⟨true, false, 0o755⟩, true⟩,
              ⟨"sub", 1, false, Except.ok ⟨true, false, 0o755⟩, true⟩,
              ⟨"a.txt", 1, true, Except.ok ⟨false, false, 0o644⟩, false⟩]).num_folders +
          (iterate_folders_summary
            [⟨"root", 0, false, Except.ok ⟨true, false, 0o755⟩, true⟩,
              ⟨"sub", 1, false, Except.ok ⟨true, false, 0o755⟩, true⟩,
              ⟨"a.txt", 1, true, Except.ok ⟨false, false, 0o644⟩, false⟩]).num_files =
        ([⟨"root", 0, false, Except.ok ⟨true, false, 0o755⟩, true⟩,
          ⟨"sub", 1, false, Except.ok ⟨true, false, 0o755⟩, true⟩,
          ⟨"a.txt", 1, true, Except.ok ⟨false, false, 0o644⟩, false⟩] :
            List IteratorItem).length - 1 :=
  iterate_folders_summary_counts
    ⟨"root", 0, false, Except.ok ⟨true, false, 0o755⟩, true⟩
    [⟨"sub", 1, false, Except.ok ⟨true, false, 0o755⟩, true⟩,
      ⟨"a.txt", 1, true, Except.ok ⟨false, false, 0o644⟩, false⟩]
    rfl

/-- C5: the trailing `num_folders.saturating_sub(1)` of `iterate_folders`
saturates at zero: on any run in which no directory entry was counted, the
reported directory count is `0`, never negative or wrapped around. -/
theorem iterate_folders_no_dir_saturates (entries : List IteratorItem)
    (h : ∀ e ∈ entries, e.is_dir = false) :
    (iterate_folders_summary entries).num_folders = 0 := by
  simp only [iterate_folders_summary]
  rw [foldl_count_entry]
  have hz : entries.countP (fun e => e.is_dir) = 0 := by
    rw [List.countP_eq_zero]
    intro e he
    simp [h e he]
  simp [hz]

/-- Witness for C5: a run whose only entry is a plain-file root. -/
theorem iterate_folders_no_dir_saturates_witness :
    (iterate_folders_summary
        [⟨"file.txt", 0, true, Except.ok ⟨false, false, 0o644⟩, false⟩]).num_folders =
      0 :=
  iterate_folders_no_dir_saturates
    [⟨"file.txt", 0, true, Except.ok ⟨false, false, 0o644⟩, false⟩]
    (by intro e he; simp at he; simp [he])

/-- C6: for every combination of the `-C` (`color_on`) and `-n`
(`color_off`) flags, any `Config` built by `Config::try_from` has
`use_color` true exactly when `-C` was given or `-n` was not: colour is on
by default, `-n` alone turns it off, and `-C` together with `-n` leaves it
on. -/
theorem config_use_color (glob_new : String → Except String Glob) (args : Args)
    (config : Config) (h : Config.try_from glob_new args = Except.ok config) :
    config.use_color = (args.color_on || !args.color_off) ∧
      (config.use_color = true ↔ (args.color_on = true ∨ args.color_off = false)) := by
  have hc : config.use_color = (args.color_on || !args.color_off) := by
    unfold Config.try_from at h
    rcases hm : args.include_pattern.map glob_new with _ | (e | g) <;>
      rw [hm] at h <;> simp at h <;> rw [← h]
  refine ⟨hc, ?_⟩
  rw [hc]
  rcases args.color_on with _ | _ <;> rcases args.color_off with _ | _ <;> simp

/-- Witness for C6 with both `-C` and `-n` passed (and no glob pattern):
colour stays on. -/
theorem config_use_color_witness :
    ({ use_color := true, show_hidden := false, max_level := 0,
        include_glob := none } : Config).use_color = (true || !true) ∧
      (({ use_color := true, show_hidden := false, max_level := 0,
          include_glob := none } : Config).use_color = true ↔
        (true = true ∨ true = false)) :=
  config_use_color (fun s => Except.ok ⟨s⟩)
    ⟨false, true, true, ".", none, 0⟩
    { use_color := true, show_hidden := false, max_level := 0,
      include_glob := none }
    rfl

lemma textOf_write_color (config : Config) (c : Nat) (s : String) :
    textOf (write_color config c s) = s := by
  rcases hc : config.use_color with _ | _ <;>
    simp [write_color, hc, textOf]

lemma textOf_print_path (file_name : String) (metadata : Metadata)
    (config : Config) :
    textOf (print_path file_name metadata config) = file_name := by
  unfold print_path
  split_ifs <;> simp [textOf_write_color, textOf]

/-- C7: for every entry name, metadata and configuration, the printable
text written by `print_path` (and by `write_color`) is the same whether
`use_color` is true or false: disabling colour drops only the colour and
reset commands, never text content. -/
theorem print_output_color_invariant (file_name : String) (metadata : Metadata)
    (config : Config) (b1 b2 : Bool) (c : Nat) (s : String) :
    textOf (print_path file_name metadata { config with use_color := b1 }) =
        textOf (print_path file_name metadata { config with use_color := b2 }) ∧
      textOf (write_color { config with use_color := b1 } c s) =
        textOf (write_color { config with use_color := b2 } c s) := by
  constructor
  · rw [textOf_print_path, textOf_print_path]
  · rw [textOf_write_color, textOf_write_color]

/-- C8 counterexample: a symlink entry (metadata has `is_symlink = true`,
not a directory, not executable) printed with colour enabled produces just
the plain name — no third accent colour, no arrow, no link target. -/
theorem print_path_symlink_counterexample :
    print_path "link" ⟨false, true, 0⟩ ⟨true, false, 0, none⟩ =
      [TermEvent.text "link"] := rfl

/-- C8 amended: `print_path` gives symlinks no special styling at all: its
output ignores the symlink flag, its printable text is exactly the entry
name (no arrow, no target), and the only colours it can ever emit are the
directory accent (`BRIGHT_BLUE`) and the executable accent
(`BRIGHT_GREEN`). -/
theorem print_path_symlink_amended (file_name : String) (metadata : Metadata)
    (config : Config) (b : Bool) :
    print_path file_name { metadata with is_symlink := b } config =
        print_path file_name metadata config ∧
      textOf (print_path file_name metadata config) = file_name ∧
      (print_path file_name metadata config).all noThirdAccent = true := by
  refine ⟨rfl, textOf_print_path file_name metadata config, ?_⟩
  unfold print_path write_color
  rcases hc : config.use_color with _ | _ <;>
    split_ifs <;> simp [noThirdAccent]

/-- C9: with an include pattern present, a glob-compilation failure makes
`Config::try_from` (and hence `main`) fail with the descriptive message
before any traversal: `main_model`'s result is the error no matter what the
traversal would do, so `iterate_folders` is never invoked; with a valid
pattern, configuration succeeds and stores the compiled matcher. -/
theorem config_error_skips_traversal (glob_new : String → Except String Glob)
    (args : Args) (p : String) (hp : args.include_pattern = some p) :
    (∀ e, glob_new p = Except.error e →
      (∀ traverse, main_model glob_new args traverse =
          Except.error ("`include_pattern` is not valid: " ++ e)) ∧
        Config.try_from glob_new args =
          Except.error ("`include_pattern` is not valid: " ++ e)) ∧
      (∀ g, glob_new p = Except.ok g →
        ∃ config, Config.try_from glob_new args = Except.ok config ∧
          config.include_glob = some g.compile_matcher) := by
  constructor
  · intro e he
    have htf : Config.try_from glob_new args =
        Except.error ("`include_pattern` is not valid: " ++ e) := by
      unfold Config.try_from
      rw [hp]
      simp [he]
    exact ⟨fun traverse => by unfold main_model; rw [htf], htf⟩
  · intro g hg
    refine ⟨{ use_color := args.color_on || !args.color_off
              show_hidden := args.show_all
              max_level := args.max_level
              include_glob := some g.compile_matcher }, ?_, rfl⟩
    unfold Config.try_from
    rw [hp]
    simp [hg]

/-- Witness for C9: an invalid pattern aborts `main_model` with the
descriptive error, whatever the traversal. -/
theorem config_error_skips_traversal_witness :
    main_model (fun _ => Except.error "nope")
        ⟨false, false, false, ".", some "[", 0⟩
        (fun _ => Except.ok ⟨0, 0⟩) =
      Except.error ("`include_pattern` is not valid: " ++ "nope") :=
  ((config_error_skips_traversal (fun _ => Except.error "nope")
      ⟨false, false, false, ".", some "[", 0⟩ "[" rfl).1 "nope" rfl).1
    (fun _ => Except.ok ⟨0, 0⟩)

/-- C10: for an entry whose metadata lookup failed, `print_line` still
writes the computed connector prefix and the terminating newline to
standard output and returns `Ok`, while the entry name followed by
`" [Error]"` goes to standard error instead of a styled name on standard
output. -/
theorem print_line_metadata_error (entry : IteratorItem) (pfx : String)
    (config : Config) (e : String) (h : entry.metadata = Except.error e) :
    print_line entry pfx config =
      ([TermEvent.text pfx, TermEvent.text "\n"],
        entry.file_name ++ " [Error]", Except.ok ()) := by
  unfold print_line
  rw [h]

/-- Witness for C10 at a concrete unreadable entry. -/
theorem print_line_metadata_error_witness :
    print_line ⟨"broken", 1, true, Except.error "io", false⟩ "x"
        ⟨true, false, 0, none⟩ =
      ([TermEvent.text "x", TermEvent.text "\n"],
        "broken" ++ " [Error]", Except.ok ()) :=
  print_line_metadata_error ⟨"broken", 1, true, Except.error "io", false⟩ "x"
    ⟨true, false, 0, none⟩ "io" rfl

end TreeRs

